import Mathlib

/-!
Shallow embedding of the aggregation and summarization logic of the
team-health survey repository (`src/pages/analytics.py`,
`src/team_health_check.py`), together with the categorical score tables
of the Response Recorder, and proofs of the spec's testable properties.
-/

set_option autoImplicit false

namespace HealthCheck

/-- A spreadsheet cell as seen by the analytics page after
`pd.DataFrame` construction: every cell is text; a cell either holds a
numeric value, is blank, or holds non-numeric text. -/
inductive Cell where
  | num (q : ℚ)
  | blank
  | text (s : String)
deriving DecidableEq, Repr

/-- Embedding of `pd.to_numeric(col, errors='coerce')` on one cell: a
numeric cell parses to its value, a blank or non-numeric cell coerces
to NaN (modelled as `none`). -/
def toNumeric : Cell → Option ℚ
  | .num q => some q
  | .blank => none
  | .text _ => none

/-- One parsed row of the Scores worksheet: the `Date` column parsed by
`pd.to_datetime` (split into its date component `day` and time-of-day
`minute`), the `Teams` column, and the score cells of the numeric
columns in order. -/
structure Row where
  day : ℤ
  minute : ℕ
  team : String
  scores : List Cell
deriving DecidableEq, Repr

/-- Column `j` of a set of rows (missing cells read as blank). -/
def colCells (rows : List Row) (j : ℕ) : List Cell :=
  rows.map (fun r => r.scores.getD j Cell.blank)

/-- The parseable numeric values of column `j`, i.e. the non-NaN entries
of the column after `pd.to_numeric(errors='coerce')`. -/
def colValues (rows : List Row) (j : ℕ) : List ℚ :=
  (colCells rows j).filterMap toNumeric

/-- Embedding of `df[col].mean()`: pandas skips NaN, so the mean is the
sum of the parseable values divided by their count; with no parseable
value the result is NaN (modelled as `none`). -/
def colMean (rows : List Row) (j : ℕ) : Option ℚ :=
  let vs := colValues rows j
  if vs.length = 0 then none else some (vs.sum / (vs.length : ℚ))

/-- Sum of column `j` counting every unparseable cell as 0. -/
def colSum (rows : List Row) (j : ℕ) : ℚ :=
  ((colCells rows j).map (fun c => (toNumeric c).getD 0)).sum

/-- Number of cells of column `j` that parse to a number. -/
def colCount (rows : List Row) (j : ℕ) : ℕ :=
  ((colCells rows j).filter (fun c => (toNumeric c).isSome)).length

/-- The filter settings of the analytics page: an inclusive date range
and the selected team set (empty multiselect means no team filter). -/
structure Filters where
  startDay : ℤ
  endDay : ℤ
  teams : List String
deriving DecidableEq, Repr

/-- The date-range mask
`(df['Date'].dt.date >= date_range[0]) & (df['Date'].dt.date <= date_range[1])`:
only the date component of a row is compared, inclusively on both ends. -/
def dateFilter (startDay endDay : ℤ) (rows : List Row) : List Row :=
  rows.filter (fun r => decide (startDay ≤ r.day ∧ r.day ≤ endDay))

/-- The team mask `filtered_df['Teams'].isin(teams)`, applied only when
the selected team list is non-empty (`if teams and ...`). -/
def teamFilter (teams : List String) (rows : List Row) : List Row :=
  if teams.isEmpty then rows else rows.filter (fun r => decide (r.team ∈ teams))

/-- Embedding of `filtered_df`: the date-range mask followed by the
team mask. -/
def filteredRows (f : Filters) (rows : List Row) : List Row :=
  teamFilter f.teams (dateFilter f.startDay f.endDay rows)

/-- Embedding of `filtered_df[numeric_cols].mean()`: the per-category
means of the first `ncols` columns. -/
def currentAvgOf (rows : List Row) (ncols : ℕ) : List (Option ℚ) :=
  (List.range ncols).map (fun j => colMean rows j)

/-- One step of `groupby('Teams')`: put row `r` into the group keyed by
`t`, creating the group if it is new. -/
def insertGrouped (t : String) (r : Row) : List (String × List Row) → List (String × List Row)
  | [] => [(t, [r])]
  | (k, g) :: rest =>
      if k = t then (k, g ++ [r]) :: rest else (k, g) :: insertGrouped t r rest

/-- Embedding of `filtered_df.groupby('Teams')`: collect the rows into
groups keyed by their team identifier. -/
def groupByTeam (rows : List Row) : List (String × List Row) :=
  rows.foldl (fun acc r => insertGrouped r.team r acc) []

/-- The rows grouped under key `t` (the empty list when `t` has no group). -/
def lookupGroup (t : String) : List (String × List Row) → List Row
  | [] => []
  | (k, g) :: rest => if k = t then g else lookupGroup t rest

/-- Embedding of
`team_avg = filtered_df.groupby('Teams')[numeric_cols].mean()`: the
per-category means computed within each team's group. -/
def teamAvgOf (rows : List Row) (ncols : ℕ) : List (String × List (Option ℚ)) :=
  (groupByTeam rows).map (fun p => (p.1, currentAvgOf p.2 ncols))

/-- Python `int(x)` on a rational: truncation toward zero. -/
def pyInt (q : ℚ) : ℤ :=
  if 0 ≤ q then ⌊q⌋ else ⌈q⌉

/-- Embedding of the label lookup
`approach_labels.get(int(idx), f"Score " ++ str(idx))`: the fixed
3-point label table is probed with the integer truncation of the score,
and any miss falls back to a generic score label built from the raw
value. -/
def approachLabel (v : ℚ) : String :=
  if pyInt v = 1 then "Too directive"
  else if pyInt v = 3 then "Just right"
  else if pyInt v = 5 then "Too hands off"
  else "Score " ++ toString v

/-- The labelling rule as the spec words it: scores 1, 3, 5 get the
fixed labels and any other value `N` gets the generic label built from
`N` itself, with no truncation step. -/
def specLabel (v : ℚ) : String :=
  if v = 1 then "Too directive"
  else if v = 3 then "Just right"
  else if v = 5 then "Too hands off"
  else "Score " ++ toString v

/-- Embedding of `value_counts().sort_index()`: each distinct value of
the list (NaN already excluded by `value_counts`), in ascending order,
with its number of occurrences. -/
def valueCounts (vals : List ℚ) : List (ℚ × ℕ) :=
  ((vals.dedup).insertionSort (· ≤ ·)).map (fun v => (v, vals.count v))

/-- The pie-chart data of the Manager Approach Distribution: the value
counts with each value replaced by its display label. -/
def labeledCounts (vals : List ℚ) : List (String × ℕ) :=
  (valueCounts vals).map (fun p => (approachLabel p.1, p.2))

/-- The figures reported by the analytics page for one render. The Key
Metrics counts are computed before the filter widgets, over the full
`df`; the chart data lives behind the
`len(filtered_df) > 0 and len(numeric_cols) > 0` guard and is `none`
when the page instead shows "No data available for the selected
filters". -/
structure Snapshot where
  totalSubmissions : ℕ
  uniqueDays : ℕ
  todayCount : ℕ
  charts : Option (List (Option ℚ) × List (String × List (Option ℚ)))
deriving DecidableEq, Repr

/-- Embedding of
`today_count = len(df[df['Date'].dt.strftime('%Y-%m-%d') == today])`:
the number of rows whose date component equals `today`. -/
def todaysCount (rows : List Row) (today : ℤ) : ℕ :=
  (rows.filter (fun r => decide (r.day = today))).length

/-- The analytics page's aggregation pass: metrics over the full row
set, then the filtered charts, for `ncols` numeric columns and the
current date `today` taken at call time. -/
def analyticsSnapshot (ncols : ℕ) (rows : List Row) (f : Filters) (today : ℤ) : Snapshot :=
  let fd := filteredRows f rows
  { totalSubmissions := rows.length
    uniqueDays := (rows.map Row.day).dedup.length
    todayCount := todaysCount rows today
    charts :=
      if 0 < fd.length ∧ 0 < ncols then
        some (currentAvgOf fd ncols, teamAvgOf fd ncols)
      else none }

/-- One invocation of the aggregation: the page builds `df` as a fresh
frame from the fetched rows, mutates only that frame
(`df[col] = pd.to_numeric(...)`, `display_df ... .copy()`), and never
writes back, so the run yields the snapshot together with the input
rows as the page leaves them. -/
def aggregateRun (ncols : ℕ) (rows : List Row) (f : Filters) (today : ℤ) :
    Snapshot × List Row :=
  (analyticsSnapshot ncols rows f today, rows)

/-- Embedding of Python `round(q)`: round half to even. -/
def roundHalfEven (q : ℚ) : ℤ :=
  if q - ⌊q⌋ < 1 / 2 then ⌊q⌋
  else if 1 / 2 < q - ⌊q⌋ then ⌊q⌋ + 1
  else if ⌊q⌋ % 2 = 0 then ⌊q⌋ else ⌊q⌋ + 1

/-- Embedding of Python `round(q, 1)`: round to one decimal place,
half to even. -/
def round1 (q : ℚ) : ℚ :=
  (roundHalfEven (q * 10) : ℚ) / 10

/-- Embedding of `calculate_average` of `team_health_check.py`: the
rounded mean of the saved rating values, or 0 when the ratings mapping
is empty. -/
def calculate_average (ratings : List (String × ℚ)) : ℚ :=
  if ratings.isEmpty then 0
  else round1 ((ratings.map Prod.snd).sum / ((ratings.map Prod.snd).length : ℚ))

/-- Modelled from the spec: the Response Recorder page (not under
`src/`) translates the 5-point Likert answers to scores 1–5 through a
fixed lookup table; the spec's end-to-end example fixes "Agree" at 4. -/
def likert5 : List (String × ℕ) :=
  [("Strongly disagree", 1), ("Disagree", 2), ("Neutral", 3),
   ("Agree", 4), ("Strongly agree", 5)]

/-- Modelled from the spec: the Recorder's separate 3-point scale
mapping "Too directive" / "Just right" / "Too hands off" to 1, 3, 5. -/
def scale3 : List (String × ℕ) :=
  [("Too directive", 1), ("Just right", 3), ("Too hands off", 5)]

/-- Modelled from the spec: the Recorder's categorical-to-numeric
translation probes the lookup table and maps any unknown answer to the
sentinel 0, never raising. -/
def scoreFor (tbl : List (String × ℕ)) (ans : String) : ℕ :=
  ((tbl.find? (fun p => p.1 = ans)).map Prod.snd).getD 0

/-- The spec's worked example for the per-category mean: three filtered
rows whose first score column holds 3, a blank, and 5. -/
def exMeanRows : List Row :=
  [⟨0, 0, "A", [Cell.num 3]⟩, ⟨0, 30, "A", [Cell.blank]⟩, ⟨0, 45, "B", [Cell.num 5]⟩]

/-- Two rows on days 0 and 10 used to separate the unfiltered metrics
from the filtered subset. -/
def exMetricRows : List Row :=
  [⟨0, 0, "A", [Cell.num 3]⟩, ⟨10, 0, "A", [Cell.num 5]⟩]

/-- A filter keeping only day 0, with no team filter. -/
def exMetricFilters : Filters := ⟨0, 0, []⟩

/-- A row with row `r`'s date, team and scores but time-of-day `m`. -/
def withMinute (m : ℕ) (r : Row) : Row := { r with minute := m }

/-- A single row of team A whose only score cell is blank. -/
def exBlankRows : List Row := [⟨0, 0, "A", [Cell.blank]⟩]

/-- Lemmas about the embedded list pipelines. -/

theorem filterMap_toNumeric_length (l : List Cell) :
    (l.filterMap toNumeric).length = (l.filter (fun c => (toNumeric c).isSome)).length := by
  induction l with
  | nil => rfl
  | cons c cs ih =>
      cases c <;> simp [List.filterMap_cons, toNumeric, ih]

theorem filterMap_toNumeric_sum (l : List Cell) :
    (l.filterMap toNumeric).sum = (l.map (fun c => (toNumeric c).getD 0)).sum := by
  induction l with
  | nil => rfl
  | cons c cs ih =>
      cases c <;> simp [List.filterMap_cons, toNumeric, ih]

theorem colValues_length (rows : List Row) (j : ℕ) :
    (colValues rows j).length = colCount rows j :=
  filterMap_toNumeric_length (colCells rows j)

theorem colValues_sum (rows : List Row) (j : ℕ) :
    (colValues rows j).sum = colSum rows j :=
  filterMap_toNumeric_sum (colCells rows j)

theorem lookupGroup_insertGrouped (t k : String) (r : Row)
    (gs : List (String × List Row)) :
    lookupGroup t (insertGrouped k r gs) =
      if k = t then lookupGroup t gs ++ [r] else lookupGroup t gs := by
  induction gs with
  | nil =>
      by_cases h : k = t <;> simp [insertGrouped, lookupGroup, h]
  | cons p rest ih =>
      obtain ⟨k', g⟩ := p
      by_cases h1 : k' = k
      · subst h1
        by_cases h2 : k' = t <;> simp [insertGrouped, lookupGroup, h2]
      · by_cases h2 : k' = t
        · subst h2
          simp [insertGrouped, lookupGroup, h1, Ne.symm h1]
        · simp [insertGrouped, lookupGroup, h1, h2, ih]

theorem lookupGroup_foldl (rows : List Row) (acc : List (String × List Row)) (t : String) :
    lookupGroup t (rows.foldl (fun a r => insertGrouped r.team r a) acc) =
      lookupGroup t acc ++ rows.filter (fun r => decide (r.team = t)) := by
  induction rows generalizing acc with
  | nil => simp
  | cons r rest ih =>
      rw [List.foldl_cons, ih, lookupGroup_insertGrouped]
      by_cases h : r.team = t <;> simp [h]

theorem lookupGroup_groupByTeam (rows : List Row) (t : String) :
    lookupGroup t (groupByTeam rows) = rows.filter (fun r => decide (r.team = t)) := by
  rw [groupByTeam, lookupGroup_foldl]
  rfl

theorem keys_insertGrouped (t : String) (r : Row) (gs : List (String × List Row)) :
    (insertGrouped t r gs).map Prod.fst =
      if t ∈ gs.map Prod.fst then gs.map Prod.fst else gs.map Prod.fst ++ [t] := by
  induction gs with
  | nil => simp [insertGrouped]
  | cons p rest ih =>
      obtain ⟨k, g⟩ := p
      by_cases h : k = t
      · subst h
        simp [insertGrouped]
      · simp [insertGrouped, h, ih, Ne.symm h]
        by_cases h2 : t ∈ rest.map Prod.fst <;> simp [h2, Ne.symm h]

theorem keys_nodup_insertGrouped (t : String) (r : Row) (gs : List (String × List Row))
    (h : (gs.map Prod.fst).Nodup) : ((insertGrouped t r gs).map Prod.fst).Nodup := by
  rw [keys_insertGrouped]
  by_cases hm : t ∈ gs.map Prod.fst
  · simpa [hm] using h
  · simpa [hm, List.nodup_append] using h

theorem keys_nodup_foldl (rows : List Row) (acc : List (String × List Row))
    (h : (acc.map Prod.fst).Nodup) :
    ((rows.foldl (fun a r => insertGrouped r.team r a) acc).map Prod.fst).Nodup := by
  induction rows generalizing acc with
  | nil => simpa using h
  | cons r rest ih =>
      rw [List.foldl_cons]
      exact ih _ (keys_nodup_insertGrouped r.team r acc h)

theorem keys_nodup_groupByTeam (rows : List Row) :
    ((groupByTeam rows).map Prod.fst).Nodup :=
  keys_nodup_foldl rows [] (by simp)

theorem lookupGroup_of_mem (gs : List (String × List Row))
    (h : (gs.map Prod.fst).Nodup) {p : String × List Row} (hp : p ∈ gs) :
    lookupGroup p.1 gs = p.2 := by
  induction gs with
  | nil => cases hp
  | cons q rest ih =>
      obtain ⟨k, g⟩ := q
      rcases List.mem_cons.mp hp with h1 | h1
      · subst h1
        simp [lookupGroup]
      · have h' : k ∉ rest.map Prod.fst ∧ (rest.map Prod.fst).Nodup := by
          simpa [List.nodup_cons] using h
        have hk : p.1 ≠ k := by
          intro hkk
          exact h'.1 (List.mem_map.mpr ⟨p, h1, hkk ▸ rfl⟩)
        simp [lookupGroup, Ne.symm hk, hk]
        exact ih h'.2 h1

theorem mem_groupByTeam (rows : List Row) {p : String × List Row}
    (hp : p ∈ groupByTeam rows) :
    p.2 = rows.filter (fun r => decide (r.team = p.1)) := by
  rw [← lookupGroup_groupByTeam rows p.1]
  exact (lookupGroup_of_mem (groupByTeam rows) (keys_nodup_groupByTeam rows) hp).symm

theorem scoreFor_not_mem (tbl : List (String × ℕ)) (ans : String)
    (h : ans ∉ tbl.map Prod.fst) : scoreFor tbl ans = 0 := by
  have hfind : tbl.find? (fun p => p.1 = ans) = none := by
    rw [List.find?_eq_none]
    intro p hp
    simp only [decide_eq_true_eq]
    intro hc
    exact h (List.mem_map.mpr ⟨p, hp, hc⟩)
  rw [scoreFor, hfind]
  rfl

theorem pyInt_intCast (n : ℤ) : pyInt (n : ℚ) = n := by
  rw [pyInt]
  by_cases h : (0 : ℚ) ≤ (n : ℚ) <;> simp [h, Int.floor_intCast, Int.ceil_intCast]

/-- C1: for every filtered row set and category column, the per-category
mean is the sum of the parseable numeric values of the column divided by
the count of parseable values (not the row count); non-numeric and blank
cells are excluded, so a column holding 3, a blank, and 5 averages to 4
(not 8/3), and a column with no parseable value yields `none` rather
than a division by zero. -/
theorem perCategoryMean_spec :
    (∀ (rows : List Row) (j : ℕ),
        colMean rows j =
          if colCount rows j = 0 then none
          else some (colSum rows j / (colCount rows j : ℚ)))
    ∧ colMean exMeanRows 0 = some 4
    ∧ colSum exMeanRows 0 / (exMeanRows.length : ℚ) = 8 / 3 := by
  refine ⟨fun rows j => ?_, ?_, ?_⟩
  · simp only [colMean, colValues_length, colValues_sum]
  · have h : colValues exMeanRows 0 = [3, 5] := rfl
    rw [colMean, h]
    norm_num
  · have hc : colCells exMeanRows 0 = [Cell.num 3, Cell.blank, Cell.num 5] := rfl
    have hl : ((exMeanRows.length : ℕ) : ℚ) = 3 := by norm_num [exMeanRows]
    rw [colSum, hc, hl]
    norm_num [toNumeric]

/-- C2: the date-range filter is inclusive on both ends — a row is in
the filtered list exactly when it is one of the input rows and its date
component (time-of-day ignored) lies between the range start and the
range end, so a row dated exactly on either boundary is included. -/
theorem dateFilter_inclusive (startDay endDay : ℤ) (rows : List Row) (r : Row) :
    r ∈ dateFilter startDay endDay rows ↔
      r ∈ rows ∧ startDay ≤ r.day ∧ r.day ≤ endDay := by
  simp [dateFilter, List.mem_filter]

/-- C4 counterexample: with rows on days 0 and 10 and a filter keeping
only day 0, the snapshot's submission count and unique-day count differ
from the filtered subset's row count and unique-day count — the Key
Metrics are computed over the unfiltered frame. -/
theorem keyMetrics_filtered_cex :
    (analyticsSnapshot 1 exMetricRows exMetricFilters 0).totalSubmissions
        ≠ (filteredRows exMetricFilters exMetricRows).length
    ∧ (analyticsSnapshot 1 exMetricRows exMetricFilters 0).uniqueDays
        ≠ ((filteredRows exMetricFilters exMetricRows).map Row.day).dedup.length := by
  constructor <;> decide

/-- C4 amended: the submission count and the unique-day count reported
by the snapshot are computed over the full unfiltered row set — they
equal the total row count and the number of distinct days of all rows,
and do not depend on the filter settings. -/
theorem keyMetrics_unfiltered (ncols : ℕ) (rows : List Row) (f g : Filters) (today : ℤ) :
    (analyticsSnapshot ncols rows f today).totalSubmissions = rows.length
    ∧ (analyticsSnapshot ncols rows f today).uniqueDays = (rows.map Row.day).toFinset.card
    ∧ (analyticsSnapshot ncols rows f today).totalSubmissions
        = (analyticsSnapshot ncols rows g today).totalSubmissions
    ∧ (analyticsSnapshot ncols rows f today).uniqueDays
        = (analyticsSnapshot ncols rows g today).uniqueDays := by
  refine ⟨rfl, ?_, rfl, rfl⟩
  simp [analyticsSnapshot, List.card_toFinset]

/-- C5: a team-set filter whose intersection with the rows' team
identifiers is empty yields zero filtered rows and the no-data outcome
(the chart data is `none` and the page shows the warning instead), and
the aggregation is a total function there, raising no error. -/
theorem emptyTeamIntersection_noData (ncols : ℕ) (rows : List Row) (f : Filters)
    (today : ℤ) (hne : f.teams ≠ []) (hdisj : ∀ r ∈ rows, r.team ∉ f.teams) :
    filteredRows f rows = [] ∧ (analyticsSnapshot ncols rows f today).charts = none := by
  have hfil : filteredRows f rows = [] := by
    rw [filteredRows, teamFilter, if_neg (by simpa using hne)]
    rw [List.filter_eq_nil_iff]
    intro r hr
    have hrmem : r ∈ rows := by
      rw [dateFilter] at hr
      exact (List.mem_filter.mp hr).1
    simpa using hdisj r hrmem
  refine ⟨hfil, ?_⟩
  simp [analyticsSnapshot, hfil]

theorem emptyTeamIntersection_noData_witness :
    (⟨0, 0, ["C"]⟩ : Filters).teams ≠ []
    ∧ (∀ r ∈ exMeanRows, r.team ∉ (⟨0, 0, ["C"]⟩ : Filters).teams)
    ∧ filteredRows ⟨0, 0, ["C"]⟩ exMeanRows = []
    ∧ (analyticsSnapshot 1 exMeanRows ⟨0, 0, ["C"]⟩ 0).charts = none :=
  ⟨by decide, by decide,
   (emptyTeamIntersection_noData 1 exMeanRows ⟨0, 0, ["C"]⟩ 0 (by decide) (by decide)).1,
   (emptyTeamIntersection_noData 1 exMeanRows ⟨0, 0, ["C"]⟩ 0 (by decide) (by decide)).2⟩

/-- C6: the aggregation is a pure function of (rows, filters, current
date): identical inputs produce identical snapshots, and a run hands
back the input rows unchanged (the page only mutates its own frame and
never writes to the fetched rows). -/
theorem aggregate_pure (ncols : ℕ) (rows rows' : List Row) (f f' : Filters)
    (today today' : ℤ) (hrows : rows = rows') (hf : f = f') (ht : today = today') :
    aggregateRun ncols rows f today = aggregateRun ncols rows' f' today'
    ∧ (aggregateRun ncols rows f today).2 = rows := by
  subst hrows
  subst hf
  subst ht
  exact ⟨rfl, rfl⟩

theorem aggregate_pure_witness :
    exMetricRows = exMetricRows ∧ exMetricFilters = exMetricFilters ∧ (0 : ℤ) = 0
    ∧ aggregateRun 1 exMetricRows exMetricFilters 0
        = aggregateRun 1 exMetricRows exMetricFilters 0
    ∧ (aggregateRun 1 exMetricRows exMetricFilters 0).2 = exMetricRows :=
  ⟨rfl, rfl, rfl,
   (aggregate_pure 1 exMetricRows exMetricRows exMetricFilters exMetricFilters 0 0
      rfl rfl rfl).1,
   (aggregate_pure 1 exMetricRows exMetricRows exMetricFilters exMetricFilters 0 0
      rfl rfl rfl).2⟩

/-- C8: a submission is counted among today's submissions exactly when
its date component equals the current date taken at aggregation time;
the time-of-day is ignored (changing every row's time leaves the count
unchanged), and the snapshot recomputes the count from the date passed
at the call. -/
theorem todayCount_spec :
    (∀ (rows : List Row) (today : ℤ) (r : Row),
        r ∈ rows.filter (fun r => decide (r.day = today)) ↔ r ∈ rows ∧ r.day = today)
    ∧ (∀ (rows : List Row) (today : ℤ) (m : ℕ),
        todaysCount (rows.map (withMinute m)) today = todaysCount rows today)
    ∧ ∀ (ncols : ℕ) (rows : List Row) (f : Filters) (today : ℤ),
        (analyticsSnapshot ncols rows f today).todayCount = todaysCount rows today := by
  refine ⟨fun rows today r => ?_, fun rows today m => ?_, fun ncols rows f today => rfl⟩
  · simp [List.mem_filter]
  · rw [todaysCount, todaysCount, List.filter_map, List.length_map]
    rfl

/-- C9: the Recorder's categorical-to-numeric translation returns for
every table entry exactly the score of the fixed lookup table (the
5-point Likert table and the 3-point manager-approach table), and for
every answer outside the table it returns the sentinel 0, never
raising. -/
theorem recorder_score_lookup :
    (∀ p ∈ likert5, scoreFor likert5 p.1 = p.2)
    ∧ (∀ p ∈ scale3, scoreFor scale3 p.1 = p.2)
    ∧ (∀ ans : String, ans ∉ likert5.map Prod.fst → scoreFor likert5 ans = 0)
    ∧ (∀ ans : String, ans ∉ scale3.map Prod.fst → scoreFor scale3 ans = 0) :=
  ⟨by decide, by decide,
   fun ans h => scoreFor_not_mem likert5 ans h,
   fun ans h => scoreFor_not_mem scale3 ans h⟩

theorem score_label_ne_directive (s : String) : "Score " ++ s ≠ "Too directive" := by
  intro h
  have hdata := congrArg String.data h
  rw [String.data_append] at hdata
  have : 'S' = 'T' := by
    simpa using congrArg (fun l => l.headI) hdata
  exact absurd this (by decide)

/-- C3 counterexample: a filtered set whose manager-approach score is
3/2 is labelled "Too directive" by the page (the table lookup truncates
the value with `int` first), whereas the claim's rule — score 1, 3 or 5
gets the fixed label and any other value N the generic "Score N" label —
would put 3/2 under the generic label. -/
theorem approachLabel_truncation_cex :
    labeledCounts [3 / 2] = [("Too directive", 1)]
    ∧ labeledCounts [3 / 2] ≠ [(specLabel (3 / 2), 1)] := by
  have h1 : labeledCounts [3 / 2] = [("Too directive", 1)] := by
    norm_num [labeledCounts, valueCounts, approachLabel, pyInt, List.dedup,
      List.insertionSort, List.count_cons, List.count_nil]
  refine ⟨h1, ?_⟩
  rw [h1]
  intro hcontra
  have hlbl : "Too directive" = specLabel (3 / 2) := by
    simpa using hcontra
  have hspec : specLabel ((3 : ℚ) / 2) = "Score " ++ toString ((3 : ℚ) / 2) := by
    norm_num [specLabel]
  rw [hspec] at hlbl
  exact score_label_ne_directive (toString ((3 : ℚ) / 2)) hlbl.symm

/-- C3 amended: the distribution counts occurrences of each distinct
raw score of the filtered rows; a score is labelled through the integer
truncation of its value — truncation 1 as "Too directive", 3 as "Just
right", 5 as "Too hands off", anything else as the generic score label —
so on integer scores the remap is exactly the fixed table of the claim,
and raw scores 1, 1, 3, 5 produce the labelled counts Too directive 2,
Just right 1, Too hands off 1. -/
theorem approachDistribution_amended :
    (∀ (vals : List ℚ) (v : ℚ), v ∈ vals →
        (approachLabel v, vals.count v) ∈ labeledCounts vals)
    ∧ (∀ n : ℤ, approachLabel (n : ℚ)
        = if n = 1 then "Too directive"
          else if n = 3 then "Just right"
          else if n = 5 then "Too hands off"
          else "Score " ++ toString ((n : ℚ)))
    ∧ labeledCounts [1, 1, 3, 5]
        = [("Too directive", 2), ("Just right", 1), ("Too hands off", 1)] := by
  refine ⟨fun vals v hv => ?_, fun n => ?_, ?_⟩
  · have hd : v ∈ (vals.dedup).insertionSort (· ≤ ·) :=
      (List.perm_insertionSort (· ≤ ·) vals.dedup).mem_iff.mpr (List.mem_dedup.mpr hv)
    rw [labeledCounts, valueCounts, List.map_map]
    exact List.mem_map.mpr ⟨v, hd, rfl⟩
  · simp [approachLabel, pyInt_intCast]
  · norm_num [labeledCounts, valueCounts, approachLabel, pyInt, List.dedup,
      List.insertionSort, List.orderedInsert, List.count_cons, List.count_nil]

theorem approachDistribution_amended_witness :
    (3 : ℚ) ∈ [(1 : ℚ), 1, 3, 5]
    ∧ (approachLabel 3, ([(1 : ℚ), 1, 3, 5]).count 3) ∈ labeledCounts [1, 1, 3, 5] :=
  ⟨by norm_num, approachDistribution_amended.1 [1, 1, 3, 5] 3 (by norm_num)⟩

/-- C7: the team breakdown groups the filtered rows by team identifier
and computes each category's mean by the same rule within each group:
the per-category means recorded for a team equal the overall
per-category means applied to just that team's rows. -/
theorem teamBreakdown_spec :
    (∀ (rows : List Row) (ncols : ℕ) (t : String),
        currentAvgOf (lookupGroup t (groupByTeam rows)) ncols
          = currentAvgOf (rows.filter (fun r => decide (r.team = t))) ncols)
    ∧ ∀ (rows : List Row) (ncols : ℕ),
        ∀ p ∈ teamAvgOf rows ncols,
          p.2 = currentAvgOf (rows.filter (fun r => decide (r.team = p.1))) ncols := by
  constructor
  · intro rows ncols t
    rw [lookupGroup_groupByTeam]
  · intro rows ncols p hp
    rw [teamAvgOf] at hp
    obtain ⟨q, hq, rfl⟩ := List.mem_map.mp hp
    have h2 := mem_groupByTeam rows hq
    simpa using congrArg (fun l => currentAvgOf l ncols) h2

theorem teamBreakdown_spec_witness :
    ("A", [(none : Option ℚ)]) ∈ teamAvgOf exBlankRows 1
    ∧ (("A", [(none : Option ℚ)]) : String × List (Option ℚ)).2
        = currentAvgOf (exBlankRows.filter (fun r => decide (r.team = "A"))) 1 :=
  ⟨by decide, teamBreakdown_spec.2 exBlankRows 1 ("A", [(none : Option ℚ)]) (by decide)⟩

theorem roundHalfEven_abs (q : ℚ) : |(roundHalfEven q : ℚ) - q| ≤ 1 / 2 := by
  have h0 : ((⌊q⌋ : ℤ) : ℚ) ≤ q := Int.floor_le q
  have h1 : q < (⌊q⌋ : ℚ) + 1 := Int.lt_floor_add_one q
  rw [roundHalfEven]
  by_cases hA : q - (⌊q⌋ : ℚ) < 1 / 2
  · rw [if_pos hA, abs_le]
    constructor <;> linarith
  · rw [if_neg hA]
    by_cases hB : (1 : ℚ) / 2 < q - (⌊q⌋ : ℚ)
    · rw [if_pos hB]
      push_cast
      rw [abs_le]
      constructor <;> linarith
    · rw [if_neg hB]
      have hEq : q - (⌊q⌋ : ℚ) = 1 / 2 := le_antisymm (not_lt.mp hB) (not_lt.mp hA)
      by_cases hC : ⌊q⌋ % 2 = 0
      · rw [if_pos hC, abs_le]
        constructor <;> linarith
      · rw [if_neg hC]
        push_cast
        rw [abs_le]
        constructor <;> linarith

/-- C10: with an empty ratings mapping `calculate_average` returns 0
rather than dividing by zero; with a non-empty mapping it returns the
arithmetic mean of the saved rating values rounded to one decimal place,
hence a value within 1/20 of the exact mean. -/
theorem calculate_average_spec :
    calculate_average [] = 0
    ∧ (∀ ratings : List (String × ℚ), ratings ≠ [] →
        calculate_average ratings
          = round1 ((ratings.map Prod.snd).sum / (ratings.length : ℚ)))
    ∧ ∀ ratings : List (String × ℚ), ratings ≠ [] →
        |calculate_average ratings
            - (ratings.map Prod.snd).sum / (ratings.length : ℚ)| ≤ 1 / 20 := by
  have key : ∀ ratings : List (String × ℚ), ratings ≠ [] →
      calculate_average ratings
        = round1 ((ratings.map Prod.snd).sum / (ratings.length : ℚ)) := by
    intro ratings h
    rw [calculate_average, if_neg (by simpa using h), List.length_map]
  refine ⟨rfl, key, fun ratings h => ?_⟩
  rw [key ratings h, round1]
  have hb := roundHalfEven_abs (((ratings.map Prod.snd).sum / (ratings.length : ℚ)) * 10)
  rw [abs_le] at hb ⊢
  constructor <;> linarith [hb.1, hb.2]

theorem calculate_average_spec_witness :
    ([("a", 3), ("b", 4), ("c", 4)] : List (String × ℚ)) ≠ []
    ∧ calculate_average [("a", 3), ("b", 4), ("c", 4)]
        = round1 ((([("a", (3 : ℚ)), ("b", 4), ("c", 4)]).map Prod.snd).sum
            / ((([("a", (3 : ℚ)), ("b", 4), ("c", 4)]).length : ℚ)))
    ∧ |calculate_average [("a", 3), ("b", 4), ("c", 4)]
          - (([("a", (3 : ℚ)), ("b", 4), ("c", 4)]).map Prod.snd).sum
              / ((([("a", (3 : ℚ)), ("b", 4), ("c", 4)]).length : ℚ))| ≤ 1 / 20 :=
  ⟨by simp,
   calculate_average_spec.2.1 [("a", 3), ("b", 4), ("c", 4)] (by simp),
   calculate_average_spec.2.2 [("a", 3), ("b", 4), ("c", 4)] (by simp)⟩

theorem recorder_score_lookup_witness :
    ("Agree", 4) ∈ likert5 ∧ scoreFor likert5 "Agree" = 4
    ∧ ("Just right", 3) ∈ scale3 ∧ scoreFor scale3 "Just right" = 3
    ∧ "Whatever" ∉ likert5.map Prod.fst ∧ scoreFor likert5 "Whatever" = 0
    ∧ "Whatever" ∉ scale3.map Prod.fst ∧ scoreFor scale3 "Whatever" = 0 :=
  ⟨by decide, recorder_score_lookup.1 ("Agree", 4) (by decide),
   by decide, recorder_score_lookup.2.1 ("Just right", 3) (by decide),
   by decide, recorder_score_lookup.2.2.1 "Whatever" (by decide),
   by decide, recorder_score_lookup.2.2.2 "Whatever" (by decide)⟩

end HealthCheck
